import Mathlib

/-!
Verification development for the Lorcana deck-evolution core: a shallow
embedding, in Lean 4, of the game engine (`src/game_engine/game_engine.py`),
the effect resolver (`src/game_engine/effect_resolver.py`), the action
enumeration (`src/game_engine/player_logic.py`), the fitness simulator
(`src/evolution.py`) and the constrained genetic operators
(`src/genetic_algorithm.py`, `src/deck_generator.py`).

Conventions of the embedding:
* Python integers become `Int` (card cost, lore, strength, willpower,
  damage counters, keyword values); turn counters and player ids are `Nat`.
* Python object identity is represented by structural equality of card
  values; every state used in a theorem gives distinct cards distinct
  `unique_id`s, so `List.erase` / first-occurrence replacement coincides
  with Python's identity-based `list.remove` and in-place mutation.
* The process-global `random` module is made explicit as a `PyRNG` value
  threaded through every function that consumes randomness; the Mersenne
  Twister is abstracted as a stream of raw draws.
* `run_main_phase` scores candidate actions with floating-point
  heuristics; its observable effect is a state transformation, so the
  turn loop is parameterised over the main-phase policy
  `pol : GameState → GameState` and theorems quantify over it.
-/

namespace Oracle

/-!
String primitives.  The embedding re-implements the handful of string
operations the source uses (`lower`, `upper`, `startswith`, `strip`,
`split`, lexicographic comparison, integer parsing) by structural
recursion over the character list, because the kernel must be able to
evaluate every definition on concrete inputs.
-/

/-- Python `str.lower` (ASCII, which covers every keyword string). -/
def str_lower (s : String) : String :=
  String.mk (s.data.map Char.toLower)

/-- Python `str.upper`. -/
def str_upper (s : String) : String :=
  String.mk (s.data.map Char.toUpper)

/-- Character-list version of `startswith`. -/
def starts_with_chars : List Char → List Char → Bool
  | [], _ => true
  | _ :: _, [] => false
  | a :: as, b :: bs => a == b && starts_with_chars as bs

/-- Python `str.startswith`. -/
def str_starts_with (s pre : String) : Bool :=
  starts_with_chars pre.data s.data

/-- Python `str.strip` (whitespace at both ends). -/
def str_strip (s : String) : String :=
  String.mk (((s.data.dropWhile Char.isWhitespace).reverse.dropWhile
    Char.isWhitespace).reverse)

/-- Split a character list at every space. -/
def split_spaces_chars : List Char → List Char → List (List Char)
  | [], acc => [acc.reverse]
  | c :: rest, acc =>
    if c == ' ' then acc.reverse :: split_spaces_chars rest []
    else split_spaces_chars rest (c :: acc)

/-- Split a character list at every comma. -/
def split_comma_chars : List Char → List Char → List (List Char)
  | [], acc => [acc.reverse]
  | c :: rest, acc =>
    if c == ',' then acc.reverse :: split_comma_chars rest []
    else split_comma_chars rest (c :: acc)

/-- Split a character list at every ", " (leftmost, non-overlapping,
as `str.split(", ")` does). -/
def split_comma_space_chars : List Char → List Char → List (List Char)
  | ',' :: ' ' :: rest, acc => acc.reverse :: split_comma_space_chars rest []
  | c :: rest, acc => split_comma_space_chars rest (c :: acc)
  | [], acc => [acc.reverse]

/-- Python `str.split()` (no argument): split on blank runs, dropping
empty fragments. -/
def py_split (s : String) : List String :=
  ((split_spaces_chars s.data []).map String.mk).filter (fun t => t ≠ "")

/-- Python `str.split(",")`. -/
def split_commas (s : String) : List String :=
  (split_comma_chars s.data []).map String.mk

/-- Parse a non-empty all-digit character list. -/
def parse_nat_chars (l : List Char) : Option Nat :=
  if l ≠ [] ∧ l.all Char.isDigit then
    some (l.foldl (fun acc c => acc * 10 + (c.toNat - 48)) 0)
  else none

/-- Python `int(s)` restricted to the token shapes produced by keyword
strings such as "Challenger +2", "Resist +1", "Shift 5": an optional
sign followed by digits. -/
def parse_int_py (s : String) : Option Int :=
  match s.data with
  | '+' :: rest => (parse_nat_chars rest).map Int.ofNat
  | '-' :: rest => (parse_nat_chars rest).map (fun n => -(n : Int))
  | l => (parse_nat_chars l).map Int.ofNat

/-- Lexicographic comparison of character lists (code points), the
order Python's `<` uses on strings. -/
def chars_lt : List Char → List Char → Bool
  | [], [] => false
  | [], _ :: _ => true
  | _ :: _, [] => false
  | a :: as, b :: bs => a < b || (a == b && chars_lt as bs)

/-- Python `s < t` on strings. -/
def str_lt (s t : String) : Bool :=
  chars_lt s.data t.data

/-- Python `s <= t` on strings. -/
def str_le (s t : String) : Bool :=
  str_lt s t || s == t

/-- Stable insertion into a list sorted by the total preorder `le`:
the new element goes after every element `y` with `le y x`. -/
def insert_le {α : Type} (le : α → α → Bool) (x : α) : List α → List α
  | [] => [x]
  | y :: ys => if le y x then y :: insert_le le x ys else x :: y :: ys

/-- A stable sort by the total preorder `le` (the unique stable sort,
hence extensionally Python's `sorted` / `list.sort`). -/
def insort {α : Type} (le : α → α → Bool) (l : List α) : List α :=
  l.foldl (fun acc x => insert_le le x acc) []

/-- One entry of `Card.strength_modifiers`.  `Card.strength` reads the
`value` key with default 0. -/
structure StrengthMod where
  value : Int := 0
  duration : String := ""
  deriving DecidableEq

/-- One entry of `Card.keyword_modifiers`: a dict with a `keyword` key. -/
structure KeywordMod where
  keyword : String := ""
  duration : String := ""
  deriving DecidableEq

/-- One schema ability carried by a card (`Card.abilities`) — the same
dict doubles as the effect schema handed to `EffectResolver`.  The
fields are the keys the embedded code paths read: the dictionary-style
`trigger` string (`get_possible_actions`, `play_card`), the `effect`
tag, the target selector and filter keys of `_get_targets`, the integer
`value` of the numeric effects, and the keyword-valued `value` dict
(`value_keyword` / `value_amount`) consulted by `has_keyword` and
`get_keyword_value`. -/
structure Ability where
  trigger : Option String := none
  effect : Option String := none
  target : Option String := none
  value : Option Int := none
  value_keyword : Option String := none
  value_amount : Option Int := none
  cost_less_than : Option Int := none
  cost_equal_to : Option Int := none
  willpower_less_than : Option Int := none
  is_exerted : Option Bool := none
  has_keyword : Option String := none
  card_type : Option String := none
  deriving DecidableEq

/-- A card instance (`Card.__init__`).  `base_strength` is the
`Strength` column; the `strength` property adds the modifiers. -/
structure Card where
  unique_id : String := ""
  name : String := ""
  cost : Int := 0
  inkable : Bool := false
  lore : Int := 0
  card_type : String := "Character"
  keywords : List String := []
  abilities : List Ability := []
  owner_player_id : Nat := 1
  is_exerted : Bool := false
  damage_counters : Int := 0
  location : String := "deck"
  turn_played : Option Nat := none
  base_strength : Option Int := none
  willpower : Option Int := none
  strength_modifiers : List StrengthMod := []
  keyword_modifiers : List KeywordMod := []
  deriving DecidableEq

namespace Card

/-- `Card.get_base_name`: the name up to the first comma, stripped. -/
def get_base_name (c : Card) : String :=
  str_strip ((split_commas c.name).headD "")

/-- The `Card.strength` property: `None` for cards without a printed
strength, otherwise the base strength plus every modifier's `value`. -/
def strength (c : Card) : Option Int :=
  c.base_strength.map
    (fun b => c.strength_modifiers.foldl (fun acc m => acc + m.value) b)

/-- `Card.has_keyword`: a case-insensitive prefix match over the keyword
strings, an exact match over the keyword-valued abilities, and an exact
match over the keyword modifiers. -/
def has_keyword (c : Card) (keyword : String) : Bool :=
  c.keywords.any (fun kw => str_starts_with (str_lower kw) (str_lower keyword)) ||
  c.abilities.any (fun a => a.value_keyword == some keyword) ||
  c.keyword_modifiers.any (fun m => m.keyword == keyword)

/-- `Card.get_keyword_value`: scan the keyword strings for a
case-insensitive prefix match whose last blank-separated token parses as
an integer; then the abilities whose `value.keyword` matches
case-insensitively and carry an integer `amount`; then the keyword
modifiers, parsed like the keyword strings.  Entries that fail to parse
are skipped (`continue`). -/
def get_keyword_value (c : Card) (keyword : String) : Option Int :=
  (c.keywords.findSome? (fun kw =>
    if str_starts_with (str_lower kw) (str_lower keyword) then
      let parts := py_split kw
      if 1 < parts.length then parse_int_py (parts.getLastD "") else none
    else none)) <|>
  (c.abilities.findSome? (fun a =>
    if str_lower (a.value_keyword.getD "") == str_lower keyword then
      a.value_amount
    else none)) <|>
  (c.keyword_modifiers.findSome? (fun m =>
    if str_starts_with (str_lower m.keyword) (str_lower keyword) then
      let parts := py_split m.keyword
      if 1 < parts.length then parse_int_py (parts.getLastD "") else none
    else none))

/-- `Card.take_damage`: damage counters grow only on cards with a
willpower and only by positive amounts. -/
def take_damage (c : Card) (amount : Int) : Card :=
  if c.willpower ≠ none ∧ 0 < amount then
    { c with damage_counters := c.damage_counters + amount }
  else c

end Card

/-- A player (`Player.__init__`): the zones, the lore total, the
per-turn ink flag and the per-turn strength-bonus map (a dict keyed by
card `unique_id`, represented as an association list). -/
structure Player where
  player_id : Nat := 1
  deck : List Card := []
  hand : List Card := []
  inkwell : List Card := []
  play_area : List Card := []
  discard_pile : List Card := []
  locations : List Card := []
  lore : Int := 0
  has_inked_this_turn : Bool := false
  temporary_strength_mods : List (String × Int) := []
  deriving DecidableEq

namespace Player

/-- Lookup in `temporary_strength_mods` with default 0
(`dict.get(uid, 0)`). -/
def temp_mod (p : Player) (uid : String) : Int :=
  ((p.temporary_strength_mods.find? (fun e => e.1 == uid)).map (fun e => e.2)).getD 0

/-- `Player.draw_cards`: pop from the front of the deck into the hand,
setting the card's location, up to `n` times (stopping silently on an
empty deck). -/
def draw_cards (p : Player) (n : Nat) : Player :=
  match n with
  | 0 => p
  | Nat.succ m =>
    match p.deck with
    | [] => p
    | c :: rest =>
      draw_cards { p with deck := rest, hand := p.hand ++ [{ c with location := "hand" }] } m

/-- `Player.draw_initial_hand` (default 7 cards). -/
def draw_initial_hand (p : Player) : Player :=
  p.draw_cards 7

/-- `Player.get_available_ink`: count of ready cards in the inkwell. -/
def get_available_ink (p : Player) : Nat :=
  (p.inkwell.filter (fun c => !c.is_exerted)).length

/-- `Player.ready_cards`: clear the exerted flag in the inkwell and the
play area. -/
def ready_cards (p : Player) : Player :=
  { p with inkwell := p.inkwell.map (fun c => { c with is_exerted := false }),
           play_area := p.play_area.map (fun c => { c with is_exerted := false }) }

/-- `Player._can_character_act`: not exerted, and either Rush or the ink
is dry (played strictly before the current turn, or never). -/
def can_character_act (_p : Player) (character : Card) (game_turn : Nat) : Bool :=
  if character.is_exerted then false
  else if character.has_keyword "Rush" then true
  else
    match character.turn_played with
    | none => true
    | some t => t < game_turn

/-- `Player.get_possible_shift_targets`: friendly characters in play
sharing the card's base name. -/
def get_possible_shift_targets (p : Player) (card : Card) : List Card :=
  if card.has_keyword "Shift" then
    p.play_area.filter (fun ch =>
      ch.card_type == "Character" && ch.get_base_name == card.get_base_name)
  else []

/-- `Player.clear_temporary_mods`. -/
def clear_temporary_mods (p : Player) : Player :=
  { p with temporary_strength_mods := [] }

/-- `Player.return_to_hand`: move a character from the play area back to
the hand.  The damage counters are left untouched by the source. -/
def return_to_hand (p : Player) (character : Card) : Player :=
  if character ∈ p.play_area then
    { p with play_area := p.play_area.erase character,
             hand := p.hand ++ [{ character with location := "hand" }] }
  else p

/-- `Player.banish_character`: remove from play; Vanish sends the card
home to the hand with damage cleared, anything else to the discard. -/
def banish_character (p : Player) (character : Card) : Player :=
  if character ∈ p.play_area then
    if character.has_keyword "Vanish" then
      { p with play_area := p.play_area.erase character,
               hand := p.hand ++ [{ character with location := "hand", damage_counters := 0 }] }
    else
      { p with play_area := p.play_area.erase character,
               discard_pile := p.discard_pile ++ [{ character with location := "discard" }] }
  else p

/-- `Player._filter_invalid_challenge_targets`: drop targets with the
challenger's `unique_id` or name, Location targets, and everything when
the challenger itself is a Location. -/
def filter_invalid_challenge_targets (_p : Player) (challenger : Card)
    (targets : List Card) : List Card :=
  targets.filter (fun t =>
    t.unique_id ≠ challenger.unique_id &&
    t.name ≠ challenger.name &&
    t.card_type ≠ "Location" &&
    challenger.card_type ≠ "Location")

/-- `Player.get_valid_challenge_targets`: exerted Bodyguards first when
any exist, otherwise every exerted character subject to the Evasive
rule; both go through the invalid-target filter. -/
def get_valid_challenge_targets (p : Player) (challenger : Card)
    (opponent : Player) : List Card :=
  let bodyguard_targets := opponent.play_area.filter
    (fun ch => ch.is_exerted && ch.has_keyword "Bodyguard")
  if bodyguard_targets ≠ [] then
    p.filter_invalid_challenge_targets challenger bodyguard_targets
  else
    let challenger_has_evasive := challenger.has_keyword "Evasive"
    let valid_targets := opponent.play_area.filter (fun t =>
      t.is_exerted && (!(t.has_keyword "Evasive") || challenger_has_evasive))
    p.filter_invalid_challenge_targets challenger valid_targets

/-- `Player.get_valid_effect_targets`: opponent board members without
Ward.  (In the source this helper is referenced only by the test suite;
the effect resolver computes its own target lists.) -/
def get_valid_effect_targets (_p : Player) (opponent : Player) : List Card :=
  opponent.play_area.filter (fun ch => !(ch.has_keyword "Ward"))

/-- `Player.can_play_card`: enough ready ink for the printed cost. -/
def can_play_card (p : Player) (card : Card) : Bool :=
  card.cost ≤ (p.get_available_ink : Int)

end Player

/-- The game state (`GameState.__init__`): the two players (dict keys 1
and 2), the turn counter starting at 1, the active and first-player ids
and the optional winner. -/
structure GameState where
  player1 : Player
  player2 : Player
  turn_number : Nat := 1
  current_player_id : Nat := 1
  initial_player_id : Nat := 1
  winner : Option Nat := none
  deriving DecidableEq

namespace GameState

/-- `GameState.get_player` (dict lookup on keys 1 and 2). -/
def get_player (g : GameState) (player_id : Nat) : Player :=
  if player_id = 1 then g.player1 else g.player2

/-- `GameState.get_opponent`: `players[2 if player_id == 1 else 1]`. -/
def get_opponent (g : GameState) (player_id : Nat) : Player :=
  if player_id = 1 then g.player2 else g.player1

/-- Write back an updated player under its dict key. -/
def update_player (g : GameState) (player_id : Nat) (f : Player → Player) : GameState :=
  if player_id = 1 then { g with player1 := f g.player1 }
  else { g with player2 := f g.player2 }

/-- The deck-out condition of `GameState._check_for_winner`: an empty
library and no card of the hand list whose location is the hand. -/
def decked_out (p : Player) : Bool :=
  p.deck.isEmpty && !(p.hand.any (fun c => c.location == "hand"))

/-- `GameState._check_for_winner`: scan players 1 then 2; lore ≥ 20 wins
at once; an empty library with an empty hand loses at once (the winner
field receives the opponent's own `player_id`). -/
def check_for_winner (g : GameState) : GameState :=
  if 20 ≤ g.player1.lore then { g with winner := some 1 }
  else if decked_out g.player1 then { g with winner := some g.player2.player_id }
  else if 20 ≤ g.player2.lore then { g with winner := some 2 }
  else if decked_out g.player2 then { g with winner := some g.player1.player_id }
  else g

/-- `GameState._ready_phase`: the active player readies every card. -/
def ready_phase (g : GameState) : GameState :=
  g.update_player g.current_player_id Player.ready_cards

/-- `GameState._set_phase`: scan the active player's play area and add
the lore of every Location card with positive lore. -/
def set_phase (g : GameState) : GameState :=
  g.update_player g.current_player_id (fun p =>
    { p with lore := p.play_area.foldl (fun acc c =>
        if c.card_type == "Location" ∧ 0 < c.lore then acc + c.lore else acc) p.lore })

/-- `GameState._draw_phase`: the first player skips the draw of turn 1;
drawing from an empty library sets the opponent as the winner; otherwise
draw one and re-check the winner. -/
def draw_phase (g : GameState) : GameState :=
  if g.turn_number = 1 ∧ g.current_player_id = g.initial_player_id then g
  else if (g.get_player g.current_player_id).deck.isEmpty then
    { g with winner := some (g.get_opponent g.current_player_id).player_id }
  else
    check_for_winner (g.update_player g.current_player_id (fun p => p.draw_cards 1))

end GameState

/-- The banishment test of `GameState.challenge`:
`card.willpower is not None and card.damage_counters >= card.willpower`. -/
def lethal (c : Card) : Bool :=
  match c.willpower with
  | some w => w ≤ c.damage_counters
  | none => false

/-- Replace the first occurrence of `old` in a list (the functional
image of mutating, in place, the one object the Python list holds). -/
def replace_first {α : Type} [DecidableEq α] : List α → α → α → List α
  | [], _, _ => []
  | x :: xs, old, new =>
    if x = old then new :: xs else x :: replace_first xs old new

namespace GameState

/-- `GameState.challenge`: the two `raise` guards become `none`; the
attacker is exerted; the attacker's effective strength adds its
controller's per-turn bonus and, when non-zero, the Challenger value;
a non-zero Resist value clamps the result at 0; both damage amounts are
computed from the pre-challenge state and applied, and afterwards each
card whose damage counters reach its willpower is banished. -/
def challenge (g : GameState) (challenger target : Card) : Option GameState :=
  let challenger_player := g.get_player challenger.owner_player_id
  let target_player := g.get_player target.owner_player_id
  if ¬ (challenger_player.can_character_act challenger g.turn_number) then none
  else if target ∉ challenger_player.get_valid_challenge_targets challenger target_player
  then none
  else
    let challenger_strength0 :=
      challenger.strength.getD 0 + challenger_player.temp_mod challenger.unique_id
    let target_strength := target.strength.getD 0
    -- `if challenger_bonus:` adds the bonus unless it is None or 0
    let challenger_bonus := (challenger.get_keyword_value "Challenger").getD 0
    let cs1 := if challenger_bonus ≠ 0 then challenger_strength0 + challenger_bonus
               else challenger_strength0
    -- `if resist_value:` clamps at 0 unless the value is None or 0
    let resist_value := (target.get_keyword_value "Resist").getD 0
    let cs2 := if resist_value ≠ 0 then max 0 (cs1 - resist_value) else cs1
    let c1 := { challenger with is_exerted := true }
    let c2 := if 0 < target_strength then c1.take_damage target_strength else c1
    let t2 := if 0 < cs2 then target.take_damage cs2 else target
    -- reflect the in-place card mutations into the owners' play areas
    let g1 := g.update_player challenger.owner_player_id
      (fun p => { p with play_area := replace_first p.play_area challenger c2 })
    let g2 := g1.update_player target.owner_player_id
      (fun p => { p with play_area := replace_first p.play_area target t2 })
    let g3 :=
      if lethal c2 then
        g2.update_player c2.owner_player_id (fun p => p.banish_character c2)
      else g2
    let g4 :=
      if lethal t2 then
        g3.update_player t2.owner_player_id (fun p => p.banish_character t2)
      else g3
    some g4

/-- `GameState.run_turn`, parameterised over the main-phase policy
(`player_logic.run_main_phase`): winner checks bracket the phases. -/
def run_turn (pol : GameState → GameState) (g : GameState) : GameState :=
  if g.winner ≠ none then g
  else
    let g := g.check_for_winner
    if g.winner ≠ none then g
    else
      let g := g.ready_phase
      let g := g.set_phase
      let g := g.draw_phase
      if g.winner ≠ none then g
      else (pol g).check_for_winner

/-- `GameState.end_turn`: clear the active player's per-turn state, hand
control to the opponent and bump the turn counter when control returns
to the first player. -/
def end_turn (g : GameState) : GameState :=
  if g.winner ≠ none then g
  else
    let g := g.update_player g.current_player_id
      (fun p => { p.clear_temporary_mods with has_inked_this_turn := false })
    let g := { g with current_player_id := (g.get_opponent g.current_player_id).player_id }
    if g.current_player_id = g.initial_player_id then
      { g with turn_number := g.turn_number + 1 }
    else g

/-- The `while self.winner is None and self.turn_number <= max_turns`
loop of `run_game`, with explicit fuel.  Each pair of iterations of the
source loop advances the turn counter, so `2 * max_turns + 2` units of
fuel reproduce the source loop exactly for any policy that leaves
`turn_number` and `current_player_id` to `end_turn`. -/
def game_loop (pol : GameState → GameState) (max_turns : Nat) :
    Nat → GameState → GameState
  | 0, g => g
  | Nat.succ fuel, g =>
    if g.winner = none ∧ g.turn_number ≤ max_turns then
      game_loop pol max_turns fuel (end_turn (run_turn pol g))
    else g

/-- `GameState.run_game`: draw the initial hands, run the loop, then a
set winner is returned as a player; on timeout the strictly-higher-lore
player is returned, and a lore tie yields `none` (the source's
`return None  # Draw`). -/
def run_game (pol : GameState → GameState) (max_turns : Nat) (g : GameState) :
    Option Player :=
  let g := { g with player1 := g.player1.draw_initial_hand,
                    player2 := g.player2.draw_initial_hand }
  let f := game_loop pol max_turns (2 * max_turns + 2) g
  match f.winner with
  | some w => some (f.get_player w)
  | none =>
    if f.player2.lore < f.player1.lore then some f.player1
    else if f.player1.lore < f.player2.lore then some f.player2
    else none

end GameState

/-- A resolved target: `_get_targets` returns card objects for card
selectors and player objects for `Opponent` / `Controller`. -/
inductive TargetObj where
  | card (c : Card)
  | player (p : Player)
  deriving DecidableEq

/-- The filter block of `EffectResolver._get_targets`: player objects
pass unfiltered; card objects must satisfy every present filter key. -/
def passes_filters (schema : Ability) (t : TargetObj) : Bool :=
  match t with
  | TargetObj.player _ => true
  | TargetObj.card c =>
    (match schema.cost_less_than with | none => true | some v => c.cost < v) &&
    (match schema.cost_equal_to with | none => true | some v => c.cost == v) &&
    (match schema.willpower_less_than with
     | none => true
     | some v => match c.willpower with | none => false | some w => w < v) &&
    (match schema.is_exerted with | none => true | some b => c.is_exerted == b) &&
    (match schema.has_keyword with | none => true | some k => c.has_keyword k) &&
    (match schema.card_type with | none => true | some ty => c.card_type == ty)

/-- `EffectResolver._get_targets`: selector resolution followed by the
filter pass.  `Self` returns the source card, `ChosenCharacter` the
pre-chosen cards, the remaining selectors read the controller's and the
opponent's play areas (the mock-detection early return is dead in
production, where every card carries an `owner_player_id`). -/
def get_targets (g : GameState) (schema : Ability) (source_card : Card)
    (chosen_targets : List Card) : List TargetObj :=
  if schema.target == some "Self" then [TargetObj.card source_card]
  else if schema.target == some "ChosenCharacter" then
    chosen_targets.map TargetObj.card
  else
    let controller := g.get_player source_card.owner_player_id
    let opponent := g.get_opponent source_card.owner_player_id
    let targets : List TargetObj :=
      if schema.target == some "AllCharacters" then
        (controller.play_area ++ opponent.play_area).map TargetObj.card
      else if schema.target == some "OpponentCharacters" then
        opponent.play_area.map TargetObj.card
      else if schema.target == some "FriendlyCharacters" then
        controller.play_area.map TargetObj.card
      else if schema.target == some "Opponent" then [TargetObj.player opponent]
      else if schema.target == some "Controller" then [TargetObj.player controller]
      else []
    targets.filter (passes_filters schema)

/-- `EffectResolver._resolve_return_to_hand`: each card target is handed
to its owner's `return_to_hand`. -/
def resolve_return_to_hand (g : GameState) (targets : List TargetObj) : GameState :=
  targets.foldl (fun gs t =>
    match t with
    | TargetObj.card c => gs.update_player c.owner_player_id (fun p => p.return_to_hand c)
    | TargetObj.player _ => gs) g

/-- `EffectResolver.resolve_effect` on the `ReturnToHand` path: the
trigger-bag branch is dead (`GameState` never defines a `trigger_bag`
attribute, so `hasattr` fails), targets are computed and an empty list
aborts; other effect kinds are outside the claims under study and leave
the state unchanged here. -/
def resolve_effect (g : GameState) (schema : Ability) (source_card : Card)
    (chosen_targets : List Card) : GameState :=
  if schema.effect == some "ReturnToHand" then
    let targets := get_targets g schema source_card chosen_targets
    if targets.isEmpty then g else resolve_return_to_hand g targets
  else g

/-- The action algebra of `player_logic`. -/
inductive Action where
  | InkAction (card : Card)
  | PlayCardAction (card : Card) (shift_target : Option Card)
  | QuestAction (character : Card) (support_target : Option Card)
  | ChallengeAction (attacker : Card) (defender : Card)
  | SingAction (song_card : Card) (singer : Card)
  | ActivateAbilityAction (card : Card) (ability_index : Nat)
  deriving DecidableEq

/-- Step 1 of `get_possible_actions`: one ink action for the
highest-cost inkable card in hand (stable descending sort, first
element), unless the player has already inked. -/
def ink_actions (player : Player) (has_inked : Bool) : List Action :=
  if has_inked then []
  else
    let inkable_cards := player.hand.filter (fun c => c.inkable)
    match insort (fun a b => decide (b.cost ≤ a.cost)) inkable_cards with
    | [] => []
    | c :: _ => [Action.InkAction c]

/-- Step 2 of `get_possible_actions`: for every card in hand, a normal
play when affordable, plus one shift play per shift target when the
Shift cost is known and affordable. -/
def play_actions (player : Player) : List Action :=
  player.hand.flatMap (fun card =>
    (if player.can_play_card card then [Action.PlayCardAction card none] else []) ++
    (if card.has_keyword "Shift" then
      match card.get_keyword_value "Shift" with
      | some shift_cost =>
        if shift_cost ≤ (player.get_available_ink : Int) then
          (player.get_possible_shift_targets card).map
            (fun t => Action.PlayCardAction card (some t))
        else []
      | none => []
     else []))

/-- Python `max(cards, key=lambda c: c.strength or 0)`: the first card
of maximal strength, `None`-strength counting as 0. -/
def max_by_strength : List Card → Option Card
  | [] => none
  | h :: t =>
    some (t.foldl (fun best c =>
      if best.strength.getD 0 < c.strength.getD 0 then c else best) h)

/-- The support-target pick of step 3: for a Support character, the
strongest other card of the play area (or `None` when alone). -/
def support_target_for (player : Player) (ch : Card) : Option Card :=
  if ch.has_keyword "Support" then
    max_by_strength (player.play_area.filter (fun t => t.unique_id ≠ ch.unique_id))
  else none

/-- Activated-ability actions of one card: each ability whose
dictionary-style trigger is the string "Activated", with its index. -/
def activated_ability_actions (c : Card) : List Action :=
  c.abilities.enum.filterMap (fun ia =>
    if ia.2.trigger == some "Activated" then
      some (Action.ActivateAbilityAction c ia.1)
    else none)

/-- Sing actions of one character: every Song in hand whose cost the
character's Singer value covers.  (When the Singer value is missing the
source's `None >= cost` comparison raises; no action is produced.) -/
def sing_actions (player : Player) (ch : Card) : List Action :=
  if ch.has_keyword "Singer" then
    (player.hand.filter (fun c => c.card_type == "Song")).filterMap (fun song =>
      match ch.get_keyword_value "Singer" with
      | some v => if song.cost ≤ v then some (Action.SingAction song ch) else none
      | none => none)
  else []

/-- Step 3 of `get_possible_actions`, for one ready character: a
Reckless character with at least one valid challenge target produces
its challenge actions and nothing else (`continue`); otherwise quest,
challenges, activated abilities and sings are enumerated. -/
def character_actions (player : Player) (opponent : Player) (ch : Card) : List Action :=
  if ch.has_keyword "Reckless" ∧ player.get_valid_challenge_targets ch opponent ≠ [] then
    (player.get_valid_challenge_targets ch opponent).map (Action.ChallengeAction ch)
  else
    [Action.QuestAction ch (support_target_for player ch)] ++
    (player.get_valid_challenge_targets ch opponent).map (Action.ChallengeAction ch) ++
    activated_ability_actions ch ++
    sing_actions player ch

/-- Step 4 of `get_possible_actions`: activated abilities of ready
items. -/
def item_actions (player : Player) : List Action :=
  (player.play_area.filter (fun c => c.card_type == "Item" && !c.is_exerted)).flatMap
    activated_ability_actions

/-- `player_logic.get_possible_actions`: the four steps concatenated in
source order (ready characters are the play-area cards that can act). -/
def get_possible_actions (g : GameState) (player : Player) (has_inked : Bool) :
    List Action :=
  let opponent := g.get_opponent player.player_id
  ink_actions player has_inked ++
  play_actions player ++
  (player.play_area.filter (fun c => player.can_character_act c g.turn_number)).flatMap
    (character_actions player opponent) ++
  item_actions player

/-- The process-global `random` module, made explicit: a stream of raw
draws standing in for the Mersenne Twister (an exhausted stream keeps
yielding 0).  No function of the repository ever calls `random.seed`;
every consumer reads this ambient state. -/
structure PyRNG where
  stream : List Nat
  deriving DecidableEq

/-- Pull one raw draw. -/
def PyRNG.next : PyRNG → Nat × PyRNG
  | ⟨[]⟩ => (0, ⟨[]⟩)
  | ⟨n :: t⟩ => (n, ⟨t⟩)

/-- `random._randbelow(k)`: a draw reduced below `k`. -/
def rand_below (k : Nat) (r : PyRNG) : Nat × PyRNG :=
  let (n, r) := r.next
  (if k = 0 then 0 else n % k, r)

/-- `random.randint(a, b)` (both ends inclusive, `a ≤ b`). -/
def py_randint (a b : Nat) (r : PyRNG) : Nat × PyRNG :=
  let (n, r) := rand_below (b + 1 - a) r
  (a + n, r)

/-- Swap two positions of a list (identity when out of range). -/
def list_swap {α : Type} (l : List α) (i j : Nat) : List α :=
  match l.get? i, l.get? j with
  | some a, some b => (l.set i b).set j a
  | _, _ => l

/-- The Fisher–Yates sweep of `random.shuffle`: for the index `i + 1`
down to 1, draw `j` below `i + 2` and swap. -/
def shuffle_steps {α : Type} : List α → PyRNG → Nat → List α × PyRNG
  | x, r, 0 => (x, r)
  | x, r, Nat.succ i =>
    let (j, r) := rand_below (i + 2) r
    shuffle_steps (list_swap x (i + 1) j) r i

/-- `random.shuffle`. -/
def py_shuffle {α : Type} (x : List α) (r : PyRNG) : List α × PyRNG :=
  shuffle_steps x r (x.length - 1)

/-- `random.choice`: a uniform element (`none` on the empty sequence,
where the source raises `IndexError`). -/
def py_choice {α : Type} (l : List α) (r : PyRNG) : Option α × PyRNG :=
  if l.isEmpty then (none, r)
  else
    let (j, r) := rand_below l.length r
    (l.get? j, r)

/-- One catalog row (`card_df`), carrying the columns read by
`Card.__init__` and by `DeckGenerator`. -/
structure CardData where
  name : String := ""
  unique_id : Option String := none
  cost : Int := 0
  inkable : Bool := false
  lore : Int := 0
  card_type : String := "Character"
  strength : Option Int := none
  willpower : Option Int := none
  keywords : List String := []
  schema_abilities : List Ability := []
  color : Option String := none
  set_name : String := ""
  deriving DecidableEq

/-- `Card.__init__` from a catalog row.  When the row carries no
`Unique_ID` the source substitutes a fresh `uuid.uuid4()` — a further
ambient-entropy source, represented by a fixed placeholder here and
unused whenever the catalog provides ids. -/
def card_of_row (row : CardData) (owner_player_id : Nat) : Card :=
  { unique_id := row.unique_id.getD "uuid4",
    name := row.name,
    cost := row.cost,
    inkable := row.inkable,
    lore := row.lore,
    card_type := row.card_type,
    keywords := row.keywords,
    abilities := row.schema_abilities,
    owner_player_id := owner_player_id,
    base_strength := row.strength,
    willpower := row.willpower }

/-- `Player.__init__` from a deck list: resolve each name against the
catalog (first match; unknown names are skipped with a warning), then
`Deck.__init__` shuffles the library with the global RNG. -/
def mk_player (player_id : Nat) (deck_list : List String)
    (card_data : List CardData) (r : PyRNG) : Player × PyRNG :=
  let card_objects := deck_list.filterMap (fun nm =>
    (card_data.find? (fun row => row.name == nm)).map
      (fun row => card_of_row row player_id))
  let (shuffled, r) := py_shuffle card_objects r
  ({ player_id := player_id, deck := shuffled }, r)

/-- `GameState.__init__`: turn 1, player 1 active and first, no winner.
The constructor takes no seed. -/
def init_game (p1 p2 : Player) : GameState :=
  { player1 := p1, player2 := p2 }

/-- `FitnessCalculator.simulate_game`: build the two players (shuffling
each library from the ambient RNG), run the game, and map the winner to
"player1" / "player2"; a drawn or unresolved game is decided by
`random.choice` on the ambient RNG. -/
def simulate_game (pol : GameState → GameState) (card_data : List CardData)
    (deck1_list deck2_list : List String) (goes_first : Bool) (max_turns : Nat)
    (r : PyRNG) : String × PyRNG :=
  let (player1, r) := mk_player 1 deck1_list card_data r
  let (player2, r) := mk_player 2 deck2_list card_data r
  let game_state := if goes_first then init_game player1 player2
                    else init_game player2 player1
  match GameState.run_game pol max_turns game_state with
  | none =>
    let (w, r) := py_choice ["player1", "player2"] r
    (w.getD "player1", r)
  | some winner_obj =>
    (if winner_obj.player_id = player1.player_id then "player1" else "player2", r)

/-- `DeckGenerator.ink_colors`. -/
def ink_colors : List String :=
  ["Amber", "Amethyst", "Emerald", "Ruby", "Sapphire", "Steel"]

/-- The catalog after `DeckGenerator.__init__` drops the quick-start
product rows. -/
def filtered_catalog (catalog : List CardData) : List CardData :=
  catalog.filter (fun row => row.set_name ≠ "Lorcana TCG Quick Start Decks")

/-- Python `sorted` on strings. -/
def sort_strings (l : List String) : List String :=
  insort str_le l

/-- Python `sorted` on card ids. -/
def sort_ids (l : List Nat) : List Nat :=
  insort (fun a b => decide (a ≤ b)) l

/-- `DeckGenerator.unique_card_names`: the sorted distinct names. -/
def unique_card_names (catalog : List CardData) : List String :=
  sort_strings ((filtered_catalog catalog).map (fun r => r.name)).dedup

/-- `DeckGenerator.card_to_id`: position in the sorted name list. -/
def card_to_id (catalog : List CardData) (name : String) : Nat :=
  (unique_card_names catalog).findIdx (fun n => n == name)

/-- `DeckGenerator.id_to_card`. -/
def id_to_card (catalog : List CardData) (i : Nat) : String :=
  (unique_card_names catalog).getD i ""

/-- Split a `Color` column value on ", ". -/
def split_colors (s : String) : List String :=
  (split_comma_space_chars s.data []).map String.mk

/-- `DeckGenerator.colorless_cards`: distinct names of rows without a
color. -/
def colorless_cards (catalog : List CardData) : List String :=
  (((filtered_catalog catalog).filter (fun r => r.color = none)).map (fun r => r.name)).dedup

/-- The rows feeding `DeckGenerator.inkable_card_colors`. -/
def inkable_rows (catalog : List CardData) : List CardData :=
  (filtered_catalog catalog).filter (fun r => r.inkable && r.color ≠ none)

/-- Keys of `DeckGenerator.inkable_card_colors` in insertion order. -/
def inkable_card_names (catalog : List CardData) : List String :=
  ((inkable_rows catalog).map (fun r => r.name)).dedup

/-- Value of `DeckGenerator.inkable_card_colors[nm]` (the dict keeps the
last row's colors for a repeated name). -/
def inkable_colors_of (catalog : List CardData) (nm : String) : List String :=
  match ((inkable_rows catalog).reverse).find? (fun r => r.name == nm) with
  | some r => split_colors (r.color.getD "")
  | none => []

/-- A well-formed key of `DeckGenerator.ink_pair_card_lists`: a sorted
pair of two distinct ink colors. -/
def is_ink_pair (inks : List String) : Bool :=
  match inks with
  | [a, b] => ink_colors.contains a && ink_colors.contains b && str_lt a b
  | _ => false

/-- `DeckGenerator.ink_pair_card_lists` as a lookup with the dict's
`.get(key, [])` default: for a valid sorted pair, the inkable names
whose color set is contained in the pair followed by the colorless
names; for any other key, the empty list. -/
def ink_pair_card_lists (catalog : List CardData) (inks : List String) : List String :=
  if is_ink_pair inks then
    ((inkable_card_names catalog).filter (fun nm =>
      (inkable_colors_of catalog nm).all (fun c => inks.contains c))) ++
    colorless_cards catalog
  else []

/-- `DeckGenerator.get_deck_inks`: the sorted set of ink colors
appearing on the deck's distinct card names (first catalog row per
name, as `iloc[0]` picks). -/
def get_deck_inks (catalog : List CardData) (deck : List Nat) : List String :=
  let deck_names := deck.map (id_to_card catalog)
  let inks := (deck_names.dedup.flatMap (fun nm =>
    match (filtered_catalog catalog).find? (fun r => r.name == nm) with
    | some r =>
      match r.color with
      | some cstr => (split_colors cstr).filter (fun c => ink_colors.contains c)
      | none => []
    | none => [])).dedup
  sort_strings inks

/-- Two-element combinations in `itertools.combinations` order. -/
def combos2 {α : Type} : List α → List (List α)
  | [] => []
  | x :: xs => xs.map (fun y => [x, y]) ++ combos2 xs

/-- The key list of `ink_pair_card_lists`: the 15 sorted color pairs. -/
def all_ink_pairs : List (List String) :=
  combos2 ink_colors

/-- `DeckGenerator.generate_deck`: resample a random color pair until
its eligible list has at least 15 entries (the unbounded `while True`
carries explicit fuel; exhausted fuel is `none`), then lay out four
copies of each eligible id, shuffle, keep 60 and sort. -/
def generate_deck (catalog : List CardData) : Nat → PyRNG → Option (List Nat) × PyRNG
  | 0, r => (none, r)
  | Nat.succ fuel, r =>
    let (k, r) := py_choice all_ink_pairs r
    let chosen_inks_pair := k.getD []
    let eligible_unique_cards := ink_pair_card_lists catalog chosen_inks_pair
    if 15 ≤ eligible_unique_cards.length then
      let card_pool := eligible_unique_cards.flatMap
        (fun nm => List.replicate 4 (card_to_id catalog nm))
      let (card_pool, r) := py_shuffle card_pool r
      (some (sort_ids (card_pool.take 60)), r)
    else generate_deck catalog fuel r

/-- The packing loop of `_crossover_func`: walk the shuffled parent
pool, stop at 60 cards, and admit a gene only below four copies.  The
`card_counts` dict always agrees with the count over the accumulated
child, so the count is read off the child directly. -/
def pack_genes : List Nat → List Nat → List Nat
  | [], child => child
  | gene :: rest, child =>
    if 60 ≤ child.length then child
    else if child.count gene < 4 then pack_genes rest (child ++ [gene])
    else pack_genes rest child

/-- The fill loop of `_crossover_func`: while the child is short of 60,
append the fallback gene when the pool is empty, else a random card
below the 4-copy cap when one exists, else (per the source comment,
violating the rule) a random pool card.  Every pass appends exactly one
gene, so 60 units of fuel reproduce the source loop. -/
def fill_deck (pool_ids : List Nat) (fallback : Nat) :
    List Nat → PyRNG → Nat → List Nat × PyRNG
  | child, r, 0 => (child, r)
  | child, r, Nat.succ fuel =>
    if 60 ≤ child.length then (child, r)
    else if pool_ids.isEmpty then
      fill_deck pool_ids fallback (child ++ [fallback]) r fuel
    else
      let available := pool_ids.filter (fun c => child.count c < 4)
      if !available.isEmpty then
        let (x, r) := py_choice available r
        fill_deck pool_ids fallback (child ++ [x.getD 0]) r fuel
      else
        let (x, r) := py_choice pool_ids r
        fill_deck pool_ids fallback (child ++ [x.getD 0]) r fuel

/-- One offspring of `GeneticAlgorithm._crossover_func`: two random
parents, the first parent's sorted ink pair, the id pool for that pair
(the Python set, in first-occurrence order; `random.choice` ranges over
it uniformly), pack then fill then truncate to 60.  An empty pool copies
parent 1. -/
def crossover_one (catalog : List CardData) (parents : List (List Nat))
    (r : PyRNG) : List Nat × PyRNG :=
  let (i1, r) := py_randint 0 (parents.length - 1) r
  let (i2, r) := py_randint 0 (parents.length - 1) r
  let parent1 := parents.getD i1 []
  let parent2 := parents.getD i2 []
  let child_inks := sort_strings (get_deck_inks catalog parent1)
  let valid_card_names := ink_pair_card_lists catalog child_inks
  if valid_card_names.isEmpty then (parent1, r)
  else
    let valid_card_pool_ids := (valid_card_names.map (card_to_id catalog)).dedup
    let parent_pool := (parent1 ++ parent2).filter
      (fun gene => valid_card_pool_ids.contains gene)
    let (parent_pool, r) := py_shuffle parent_pool r
    let child_deck := pack_genes parent_pool []
    let (child_deck, r) := fill_deck valid_card_pool_ids (parent1.headD 0) child_deck r 60
    (child_deck.take 60, r)

/-- `GeneticAlgorithm._crossover_func` for `n` offspring. -/
def crossover_func (catalog : List CardData) (parents : List (List Nat)) :
    Nat → PyRNG → List (List Nat) × PyRNG
  | 0, r => ([], r)
  | Nat.succ n, r =>
    let (child, r) := crossover_one catalog parents r
    let (rest, r) := crossover_func catalog parents n r
    (child :: rest, r)

/-- `GeneticAlgorithm._mutation_func`: the body reads
`self.mutation_rate`, an attribute no code ever assigns, so the first
per-gene test raises `AttributeError` and the surrounding handler
returns the offspring unchanged.  The function is the identity. -/
def mutation_func (offspring : List (List Nat)) : List (List Nat) :=
  offspring

/-- `Player.exert_ink`: exert the first `amount` ready ink cards (the
caller has already checked availability). -/
def exert_ink_cards : List Card → Int → List Card
  | [], _ => []
  | c :: rest, k =>
    if ¬ c.is_exerted ∧ 0 < k then
      { c with is_exerted := true } :: exert_ink_cards rest (k - 1)
    else c :: exert_ink_cards rest k

/-- `Player.play_card`, as a state transformer on the owning game (the
source mutates `self` and consults `game`); the `raise` paths become
`none`.  A Shift play charges the Shift cost and inherits the target's
runtime state; Characters and Items enter the play area with
`turn_played` set, Locations enter the `locations` zone, Actions and
Songs go to the discard; finally every `ON_PLAY` ability resolves. -/
def play_card (g : GameState) (pid : Nat) (card : Card)
    (shift_target : Option Card) (chosen_targets : List Card) : Option GameState :=
  let p := g.get_player pid
  if card ∉ p.hand then none
  else
    let cost? : Option Int :=
      match shift_target with
      | some _ => card.get_keyword_value "Shift"
      | none => some card.cost
    match cost? with
    | none => none
    | some cost =>
      if ¬ (cost ≤ (p.get_available_ink : Int)) then none
      else
        let p := { p with inkwell := exert_ink_cards p.inkwell cost,
                          hand := p.hand.erase card }
        let placed? : Option (Player × Card) :=
          match shift_target with
          | some st =>
            if st ∉ p.play_area then none
            else
              let card2 := { card with
                is_exerted := st.is_exerted,
                damage_counters := st.damage_counters,
                strength_modifiers := st.strength_modifiers,
                keyword_modifiers := st.keyword_modifiers,
                turn_played := st.turn_played,
                location := "play_area" }
              some ({ p with
                play_area := (p.play_area.erase st) ++ [card2],
                discard_pile := p.discard_pile ++ [{ st with location := "discard" }] },
                card2)
          | none =>
            if card.card_type = "Character" ∨ card.card_type = "Item" then
              let card2 := { card with location := "play_area",
                                       turn_played := some g.turn_number }
              some ({ p with play_area := p.play_area ++ [card2] }, card2)
            else if card.card_type = "Location" then
              let card2 := { card with location := "play_area" }
              some ({ p with locations := p.locations ++ [card2] }, card2)
            else if card.card_type = "Action" ∨ card.card_type = "Song" then
              let card2 := { card with location := "discard" }
              some ({ p with discard_pile := p.discard_pile ++ [card2] }, card2)
            else some (p, card)
        match placed? with
        | none => none
        | some (p2, card2) =>
          let g2 := g.update_player pid (fun _ => p2)
          some (card2.abilities.foldl (fun gs a =>
            if str_upper (a.trigger.getD "") == "ON_PLAY" then
              resolve_effect gs a card2 chosen_targets
            else gs) g2)

/-- Whether an enumerated action has the given card as its acting
character (the quester, the singer, the ability user or the attacker;
ink and play actions act from the hand). -/
def acts_for (a : Action) (c : Card) : Bool :=
  match a with
  | Action.QuestAction ch _ => ch == c
  | Action.SingAction _ s => s == c
  | Action.ActivateAbilityAction x _ => x == c
  | Action.ChallengeAction atk _ => atk == c
  | _ => false

/-- Whether an action is a challenge led by the given card. -/
def is_challenge_by (a : Action) (c : Card) : Bool :=
  match a with
  | Action.ChallengeAction atk _ => atk == c
  | _ => false

/-! Concrete inputs used to settle the individual claims. -/

/-- A two-player state with fresh default players (both libraries
empty, both lore totals 0). -/
def c4_game : GameState :=
  { player1 := { player_id := 1 }, player2 := { player_id := 2 } }

/-- An opposing character protected by Ward. -/
def c5_ward_char : Card :=
  { unique_id := "w1", name := "Warded", card_type := "Character",
    owner_player_id := 2, location := "play_area", keywords := ["Ward"],
    base_strength := some 2, willpower := some 3 }

/-- The state in which player 2 fields only the Ward character. -/
def c5_game : GameState :=
  { player1 := { player_id := 1 },
    player2 := { player_id := 2, play_area := [c5_ward_char] } }

/-- A damage effect aimed at the opponent's characters. -/
def c5_schema : Ability :=
  { effect := some "DealDamage", target := some "OpponentCharacters", value := some 2 }

/-- The card whose ability carries the damage effect (player 1's). -/
def c5_source : Card :=
  { unique_id := "s1", name := "Zapper", card_type := "Character", owner_player_id := 1 }

/-- A challenger named like the opposing Bodyguard. -/
def c6_challenger : Card :=
  { unique_id := "e1", name := "Elsa", card_type := "Character",
    owner_player_id := 1, base_strength := some 3, willpower := some 3 }

/-- An exerted Bodyguard sharing the challenger's name. -/
def c6_bodyguard : Card :=
  { unique_id := "e2", name := "Elsa", card_type := "Character",
    owner_player_id := 2, is_exerted := true, keywords := ["Bodyguard"],
    base_strength := some 2, willpower := some 4 }

/-- The defending player fielding only the Bodyguard. -/
def c6_opponent : Player :=
  { player_id := 2, play_area := [c6_bodyguard] }

/-- The challenging player. -/
def c6_self : Player :=
  { player_id := 1 }

/-- A differently-named challenger for the amended statement. -/
def c6_hero : Card :=
  { unique_id := "h1", name := "Hero", card_type := "Character",
    owner_player_id := 1, base_strength := some 2, willpower := some 2 }

/-- A zero-cost Location worth 2 lore, sitting in player 1's hand. -/
def c7_location : Card :=
  { unique_id := "L1", name := "Great Hall", card_type := "Location",
    cost := 0, lore := 2, location := "hand", owner_player_id := 1 }

/-- The state in which player 1 holds the Location in hand. -/
def c7_game : GameState :=
  { player1 := { player_id := 1, hand := [c7_location] },
    player2 := { player_id := 2 } }

/-- A damaged character in player 1's play area. -/
def c8_char : Card :=
  { unique_id := "c8", name := "Hurt Guy", card_type := "Character",
    owner_player_id := 1, location := "play_area", damage_counters := 3,
    base_strength := some 2, willpower := some 5 }

/-- The state holding the damaged character. -/
def c8_game : GameState :=
  { player1 := { player_id := 1, play_area := [c8_char] },
    player2 := { player_id := 2 } }

/-- A ReturnToHand effect with pre-chosen targets. -/
def c8_schema : Ability :=
  { effect := some "ReturnToHand", target := some "ChosenCharacter" }

/-- The card carrying the ReturnToHand effect (player 2's). -/
def c8_source : Card :=
  { unique_id := "s8", name := "Bouncer", card_type := "Action", owner_player_id := 2 }

/-- A ready Reckless character of player 1 (its ink is dry). -/
def c9_reckless : Card :=
  { unique_id := "r1", name := "Reckless Guy", card_type := "Character",
    owner_player_id := 1, base_strength := some 2, willpower := some 2,
    lore := 1, keywords := ["Reckless"], turn_played := some 1 }

/-- An exerted opposing character the Reckless one can challenge. -/
def c9_victim : Card :=
  { unique_id := "v1", name := "Victim", card_type := "Character",
    owner_player_id := 2, base_strength := some 1, willpower := some 1,
    is_exerted := true }

/-- The state pairing the Reckless character with a legal target on
turn 2. -/
def c9_game : GameState :=
  { player1 := { player_id := 1, play_area := [c9_reckless] },
    player2 := { player_id := 2, play_area := [c9_victim] },
    turn_number := 2 }

/-- A card that keeps player 2's library non-empty. -/
def c10_card : Card :=
  { unique_id := "d1", name := "Library Card", owner_player_id := 2 }

/-- A state in which player 1 has neither library nor hand while
player 2 still has a library; nobody has reached 20 lore. -/
def c10_game : GameState :=
  { player1 := { player_id := 1 },
    player2 := { player_id := 2, deck := [c10_card] } }

/-- The spec's worked challenge example, attacker side: strength 3 with
Challenger +2, played on an earlier turn. -/
def c3_attacker : Card :=
  { unique_id := "a1", name := "Att", card_type := "Character",
    owner_player_id := 1, base_strength := some 3, willpower := some 4,
    keywords := ["Challenger +2"], turn_played := some 1 }

/-- The spec's worked challenge example, defender side: willpower 4
with Resist +1, exerted. -/
def c3_defender : Card :=
  { unique_id := "d3", name := "Def", card_type := "Character",
    owner_player_id := 2, base_strength := some 2, willpower := some 4,
    keywords := ["Resist +1"], is_exerted := true }

/-- Player 1 fielding the example attacker. -/
def c3_p1 : Player :=
  { player_id := 1, play_area := [c3_attacker] }

/-- Player 2 fielding the example defender. -/
def c3_p2 : Player :=
  { player_id := 2, play_area := [c3_defender] }

/-- The example challenge state on turn 3. -/
def c3_game : GameState :=
  { player1 := c3_p1, player2 := c3_p2, turn_number := 3 }

/-- A catalog holding a single two-color card: the eligible pool of the
pair (Amber, Steel) then has exactly one entry. -/
def c2_cat1 : List CardData :=
  [{ name := "A", unique_id := some "a", inkable := true, color := some "Amber, Steel" }]

/-- A parent deck of 60 copies of that card's id. -/
def c2_parent : List Nat :=
  List.replicate 60 0

/-- A catalog of 15 inkable cards, eight Amber and seven Steel: enough
distinct cards to fill 60 at the 4-copy cap for the pair
(Amber, Steel). -/
def c2_wrows : List CardData :=
  (["C0", "C1", "C2", "C3", "C4", "C5", "C6", "C7"].map (fun nm =>
    { name := nm, unique_id := some nm, inkable := true, color := some "Amber" })) ++
  (["C8", "C9", "CA", "CB", "CC", "CD", "CE"].map (fun nm =>
    { name := nm, unique_id := some nm, inkable := true, color := some "Steel" }))

/-- Four copies of each of the 15 ids, sorted: the deck `generate_deck`
produces from `c2_wrows`. -/
def c2_dval : List Nat :=
  (List.range 15).flatMap (fun i => List.replicate 4 i)

/-- A timeout game player 1 leads on lore. -/
def c4_hl_game : GameState :=
  { player1 := { player_id := 1, lore := 5 },
    player2 := { player_id := 2, lore := 2 } }

/-! Theorems settling the claims. -/

/-- C1: the claim asserts that game construction and `run_game` are
deterministic functions of a seed and the two deck lists.  No seed
exists anywhere in the code: the libraries are shuffled and drawn games
are decided from the ambient process-global RNG.  At identical inputs
(the same deck lists, the same `goes_first`, the same `max_turns`) two
ambient RNG states produce two different winners, so the winner is not
a function of any (seed, decks) pair. -/
theorem c1_winner_depends_on_ambient_rng_state :
    (simulate_game (fun g => g) [] [] [] true 0 ⟨[0]⟩).1 = "player1" ∧
    (simulate_game (fun g => g) [] [] [] true 0 ⟨[1]⟩).1 = "player2" := by
  exact ⟨rfl, rfl⟩

/-- C5: the claim asserts that `_get_targets` excludes Ward cards from
opponent-directed selectors.  On a concrete state the resolver returns
the Warded opposing character as the sole target of an
`OpponentCharacters` damage effect, while the unused helper
`get_valid_effect_targets` — the only place the Ward filter exists —
would have excluded it. -/
theorem c5_resolver_targets_ward_character :
    get_targets c5_game c5_schema c5_source [] = [TargetObj.card c5_ward_char] ∧
    c5_ward_char.has_keyword "Ward" = true ∧
    Player.get_valid_effect_targets c5_game.player1 c5_game.player2 = [] := by
  refine ⟨?_, ?_, ?_⟩ <;> rfl

/-- C7: the claim asserts that the Set phase adds the lore of every
Location the active player has played.  `play_card` files a played
Location under `Player.locations`, but `_set_phase` scans
`Player.play_area`, so the played Location (worth 2 lore) adds
nothing: after the Set phase the active player's lore is still 0. -/
theorem c7_set_phase_misses_played_locations :
    (play_card c7_game 1 c7_location none []).map
      (fun g => g.player1.locations.map (fun c => c.lore)) = some [2] ∧
    (play_card c7_game 1 c7_location none []).map
      (fun g => g.player1.play_area) = some [] ∧
    (play_card c7_game 1 c7_location none []).map
      (fun g => g.set_phase.player1.lore) = some 0 := by
  refine ⟨?_, ?_, ?_⟩ <;> rfl

/-- C8: the claim asserts that a card returned to hand has its damage
cleared.  Resolving `ReturnToHand` on a character carrying 3 damage
leaves it in its owner's hand still carrying 3 damage:
`Player.return_to_hand` never touches `damage_counters` (unlike the
Vanish branch of `banish_character`, which zeroes them). -/
theorem c8_return_to_hand_keeps_damage :
    (resolve_effect c8_game c8_schema c8_source [c8_char]).player1.hand.map
      (fun c => (c.damage_counters, c.location)) = [(3, "hand")] ∧
    (resolve_effect c8_game c8_schema c8_source [c8_char]).player1.play_area = [] ∧
    (3 : Int) ≠ 0 := by
  refine ⟨?_, ?_, ?_⟩ <;> first | rfl | decide

/-- C4, counterexample: the claim asserts that on timeout with equal
lore the winner is decided by a game-held seeded RNG, so that a tied
game still yields one of the two players.  On a tied timeout game
`run_game` returns no player at all (`None # Draw`). -/
theorem c4_tied_timeout_returns_no_player :
    GameState.run_game (fun g => g) 0 c4_game = none ∧
    c4_game.player1.lore = c4_game.player2.lore := by
  exact ⟨rfl, rfl⟩

/-- C6, counterexample: the claim asserts the valid-target set equals
exactly the exerted-Bodyguard set.  With an exerted Bodyguard sharing
the challenger's name, the Bodyguard set is that one card yet the
valid-target list is empty (the same-name filter runs after the
Bodyguard restriction). -/
theorem c6_same_name_bodyguard_filtered_out :
    c6_opponent.play_area.filter
      (fun ch => ch.is_exerted && ch.has_keyword "Bodyguard") = [c6_bodyguard] ∧
    Player.get_valid_challenge_targets c6_self c6_challenger c6_opponent = [] ∧
    ([] : List Card) ≠ [c6_bodyguard] := by
  refine ⟨?_, ?_, ?_⟩ <;> first | rfl | decide

/-- C6, amended: when the defender fields exerted Bodyguards, the
valid-target set is exactly the exerted-Bodyguard set minus the cards
sharing the challenger's `unique_id` or name, minus Locations, and it
is empty when the challenger is a Location. -/
theorem c6_bodyguard_targets_exactly_filtered (p : Player) (challenger : Card)
    (opponent : Player)
    (hbg : opponent.play_area.filter
      (fun ch => ch.is_exerted && ch.has_keyword "Bodyguard") ≠ []) :
    p.get_valid_challenge_targets challenger opponent =
      (opponent.play_area.filter
        (fun ch => ch.is_exerted && ch.has_keyword "Bodyguard")).filter
        (fun t => t.unique_id ≠ challenger.unique_id && t.name ≠ challenger.name &&
                  t.card_type ≠ "Location" && challenger.card_type ≠ "Location") := by
  unfold Player.get_valid_challenge_targets Player.filter_invalid_challenge_targets
  rw [if_pos hbg]

/-- C6, witness: a differently-named challenger against the lone
exerted Bodyguard receives exactly that Bodyguard as target set. -/
theorem c6_bodyguard_targets_witness :
    Player.get_valid_challenge_targets c6_self c6_hero c6_opponent = [c6_bodyguard] := by
  have h := c6_bodyguard_targets_exactly_filtered c6_self c6_hero c6_opponent (by decide)
  rw [h]; rfl

/-- C10: at a winner check, a player with an empty library and an empty
hand is declared the loser — the opponent becomes the winner — although
no draw was attempted; the check also requires that no one already won
on lore (players are scanned in order 1, 2).  `run_turn` performs this
check before the phases, for any main-phase policy. -/
theorem c10_empty_deck_and_hand_loses (pol : GameState → GameState) (g : GameState)
    (h1 : g.player1.player_id = 1) (h2 : g.player2.player_id = 2)
    (hw : g.winner = none)
    (hl1 : g.player1.lore < 20) (hl2 : g.player2.lore < 20) :
    (g.player1.deck = [] ∧ g.player1.hand = [] →
      (GameState.run_turn pol g).winner = some 2) ∧
    (g.player2.deck = [] ∧ g.player2.hand = [] ∧
        GameState.decked_out g.player1 = false →
      (GameState.run_turn pol g).winner = some 1) := by
  have hnl1 : ¬ (20 ≤ g.player1.lore) := not_le.mpr hl1
  have hnl2 : ¬ (20 ≤ g.player2.lore) := not_le.mpr hl2
  constructor
  · rintro ⟨hd, hh⟩
    have hdk : GameState.decked_out g.player1 = true := by
      unfold GameState.decked_out; rw [hd, hh]; rfl
    have hck : (GameState.check_for_winner g).winner = some 2 := by
      unfold GameState.check_for_winner
      rw [if_neg hnl1, if_pos hdk, h2]
    unfold GameState.run_turn
    rw [if_neg (by simp [hw]), if_pos (by simp [hck])]
    exact hck
  · rintro ⟨hd, hh, hnd⟩
    have hdk : GameState.decked_out g.player2 = true := by
      unfold GameState.decked_out; rw [hd, hh]; rfl
    have hck : (GameState.check_for_winner g).winner = some 1 := by
      unfold GameState.check_for_winner
      rw [if_neg hnl1, if_neg (by simp [hnd]), if_neg hnl2, if_pos hdk, h1]
    unfold GameState.run_turn
    rw [if_neg (by simp [hw]), if_pos (by simp [hck])]
    exact hck

/-- C10, witness: player 1 with empty library and hand loses the turn
check at once; player 2 (whose library is non-empty) is the winner. -/
theorem c10_empty_deck_and_hand_loses_witness :
    (GameState.run_turn (fun g => g) c10_game).winner = some 2 :=
  (c10_empty_deck_and_hand_loses (fun g => g) c10_game rfl rfl rfl
    (by decide) (by decide)).1 ⟨rfl, rfl⟩

/-- C4, amended: when the turn loop ends with no winner set, `run_game`
returns the player with strictly higher lore; when the lore totals are
equal it returns no player (`None`, a draw) — the draw is converted to
a winner only by the caller `simulate_game`, via the unseeded global
RNG.  Stated for every main-phase policy. -/
theorem c4_timeout_higher_lore_wins (pol : GameState → GameState) (max_turns : Nat)
    (g f : GameState)
    (hf : f = GameState.game_loop pol max_turns (2 * max_turns + 2)
      { g with player1 := g.player1.draw_initial_hand,
               player2 := g.player2.draw_initial_hand })
    (hw : f.winner = none) :
    (f.player2.lore < f.player1.lore →
      GameState.run_game pol max_turns g = some f.player1) ∧
    (f.player1.lore < f.player2.lore →
      GameState.run_game pol max_turns g = some f.player2) ∧
    (f.player1.lore = f.player2.lore →
      GameState.run_game pol max_turns g = none) := by
  simp only [GameState.run_game]
  rw [← hf, hw]
  refine ⟨fun hlt => ?_, fun hlt => ?_, fun heq => ?_⟩
  · rw [if_pos hlt]
  · rw [if_neg (by omega), if_pos hlt]
  · rw [if_neg (by omega), if_neg (by omega)]

/-- C4, witness: a higher-lore player 1 is returned on timeout. -/
theorem c4_timeout_higher_lore_wins_witness :
    GameState.run_game (fun g => g) 0 c4_hl_game = some c4_hl_game.player1 := by
  have h := (c4_timeout_higher_lore_wins (fun g => g) 0 c4_hl_game
    (GameState.game_loop (fun g => g) 0 (2 * 0 + 2)
      { c4_hl_game with player1 := c4_hl_game.player1.draw_initial_hand,
                        player2 := c4_hl_game.player2.draw_initial_hand })
    rfl rfl).1 (by decide)
  exact h

/-- C9: whenever a Reckless character (card type Character) has at
least one legal challenge target, every enumerated action in which it
is the acting character is a challenge it leads: no Quest, Sing or
ActivateAbility action for it appears in `get_possible_actions`. -/
theorem c9_reckless_only_challenges (g : GameState) (player : Player)
    (has_inked : Bool) (c : Card)
    (hty : c.card_type = "Character")
    (hrk : c.has_keyword "Reckless" = true)
    (htg : player.get_valid_challenge_targets c (g.get_opponent player.player_id) ≠ []) :
    (get_possible_actions g player has_inked).all
      (fun a => !(acts_for a c) || is_challenge_by a c) = true := by
  have hact : ∀ (x : Card) (a : Action), a ∈ activated_ability_actions x →
      ∃ i, a = Action.ActivateAbilityAction x i := by
    intro x a ha
    unfold activated_ability_actions at ha
    simp only [List.mem_filterMap] at ha
    obtain ⟨ia, _, hia⟩ := ha
    split at hia
    · exact ⟨ia.1, (Option.some_inj.mp hia).symm⟩
    · simp at hia
  have hsing : ∀ (x : Card) (a : Action), a ∈ sing_actions player x →
      ∃ s, a = Action.SingAction s x := by
    intro x a ha
    unfold sing_actions at ha
    split at ha
    · simp only [List.mem_filterMap] at ha
      obtain ⟨song, _, hsa⟩ := ha
      split at hsa
      · split at hsa
        · exact ⟨song, (Option.some_inj.mp hsa).symm⟩
        · simp at hsa
      · simp at hsa
    · simp at ha
  rw [List.all_eq_true]
  intro a ha
  unfold get_possible_actions at ha
  simp only [List.mem_append] at ha
  rcases ha with ((ha | ha) | ha) | ha
  · -- step 1: the ink action acts from the hand
    simp only [ink_actions] at ha
    split at ha
    · simp at ha
    · split at ha
      · simp at ha
      · simp only [List.mem_singleton] at ha
        subst ha; rfl
  · -- step 2: play actions act from the hand
    unfold play_actions at ha
    simp only [List.mem_flatMap, List.mem_append] at ha
    obtain ⟨cd, _, ha | ha⟩ := ha
    · split at ha
      · simp only [List.mem_singleton] at ha; subst ha; rfl
      · simp at ha
    · split at ha
      · split at ha
        · split at ha
          · simp only [List.mem_map] at ha
            obtain ⟨t, _, rfl⟩ := ha; rfl
          · simp at ha
        · simp at ha
      · simp at ha
  · -- step 3: character actions
    simp only [List.mem_flatMap] at ha
    obtain ⟨ch, _, ha⟩ := ha
    unfold character_actions at ha
    split at ha
    · -- the Reckless branch emits only challenges led by ch
      simp only [List.mem_map] at ha
      obtain ⟨d, _, rfl⟩ := ha
      simp [acts_for, is_challenge_by]
    · -- otherwise every action's actor is ch, and ch cannot be c
      rename_i hcond
      have hne : ch ≠ c := by
        rintro rfl
        exact hcond ⟨hrk, htg⟩
      have hbe : (ch == c) = false := beq_eq_false_iff_ne.mpr hne
      simp only [List.mem_append, List.mem_singleton, List.mem_map] at ha
      rcases ha with ((rfl | ⟨d, _, rfl⟩) | ha) | ha
      · simp [acts_for, hbe]
      · simp [acts_for, is_challenge_by, hbe]
      · obtain ⟨i, rfl⟩ := hact ch a ha
        simp [acts_for, hbe]
      · obtain ⟨s, rfl⟩ := hsing ch a ha
        simp [acts_for, hbe]
  · -- step 4: item abilities belong to Item-typed cards, never to c
    unfold item_actions at ha
    simp only [List.mem_flatMap, List.mem_filter] at ha
    obtain ⟨item, ⟨_, hitem⟩, ha⟩ := ha
    obtain ⟨i, rfl⟩ := hact item a ha
    have hne : item ≠ c := by
      rintro rfl
      rw [hty] at hitem
      simp at hitem
    have hbe : (item == c) = false := beq_eq_false_iff_ne.mpr hne
    simp [acts_for, hbe]

/-- C9, witness: in the concrete Reckless state the whole enumeration
satisfies the suppression property. -/
theorem c9_reckless_only_challenges_witness :
    (get_possible_actions c9_game c9_game.player1 true).all
      (fun a => !(acts_for a c9_reckless) || is_challenge_by a c9_reckless) = true :=
  c9_reckless_only_challenges c9_game c9_game.player1 true c9_reckless rfl
    (by decide) (by decide)

/-- Helper: the guarded damage application of `GameState.challenge`
adds exactly `max 0 amount` to the counters of a card that has a
willpower. -/
theorem take_damage_if (c : Card) (amt : Int) (hw : c.willpower ≠ none) :
    (if 0 < amt then c.take_damage amt else c) =
    { c with damage_counters := c.damage_counters + max 0 amt } := by
  unfold Card.take_damage
  split
  · rename_i hpos
    rw [if_pos ⟨hw, hpos⟩]
    congr 1
    omega
  · rename_i hnp
    have hz : max 0 amt = 0 := by omega
    rw [hz, add_zero]

/-- C3: in a challenge, the defender's damage counters grow by
`max 0 (attacker strength + attacker per-turn bonus + Challenger bonus
− Resist)`, the attacker's by the defender's strength plus the
defender's per-turn bonus (which is 0: it was cleared when the
defender's own turn ended); both amounts are computed from the
pre-challenge state (simultaneous application), and afterwards each
card whose damage counters reach its willpower leaves play. -/
theorem c3_challenge_damage_and_banish (g : GameState) (A D : Card) (wA wD : Int)
    (hAo : A.owner_player_id = 1) (hDo : D.owner_player_id = 2)
    (hpa : g.player1.play_area = [A]) (hpd : g.player2.play_area = [D])
    (hact : g.player1.can_character_act A g.turn_number = true)
    (hval : D ∈ g.player1.get_valid_challenge_targets A g.player2)
    (hwA : A.willpower = some wA) (hwD : D.willpower = some wD)
    (hdt : g.player2.temp_mod D.unique_id = 0)
    (hds : 0 ≤ D.strength.getD 0) :
    (GameState.challenge g A D).map (fun g2 => g2.player1.play_area) =
      some (if wA ≤ A.damage_counters +
              (D.strength.getD 0 + g.player2.temp_mod D.unique_id) then []
            else [{ A with is_exerted := true,
                           damage_counters := A.damage_counters +
                             (D.strength.getD 0 + g.player2.temp_mod D.unique_id) }]) ∧
    (GameState.challenge g A D).map (fun g2 => g2.player2.play_area) =
      some (if wD ≤ D.damage_counters +
              max 0 (A.strength.getD 0 + g.player1.temp_mod A.unique_id +
                (A.get_keyword_value "Challenger").getD 0 -
                (D.get_keyword_value "Resist").getD 0) then []
            else [{ D with damage_counters := D.damage_counters +
                             max 0 (A.strength.getD 0 + g.player1.temp_mod A.unique_id +
                               (A.get_keyword_value "Challenger").getD 0 -
                               (D.get_keyword_value "Resist").getD 0) }]) := by
  have hg1 : g.get_player 1 = g.player1 := rfl
  have hg2 : g.get_player 2 = g.player2 := rfl
  simp only [GameState.challenge, hAo, hDo]
  rw [hg1, hg2]
  rw [if_neg (not_not_intro hact), if_neg (not_not_intro hval)]
  rw [hdt, add_zero]
  set ts := D.strength.getD 0 with hts
  set s0 := A.strength.getD 0 + g.player1.temp_mod A.unique_id with hs0
  set cb := (A.get_keyword_value "Challenger").getD 0 with hcb
  set rv := (D.get_keyword_value "Resist").getD 0 with hrv
  have hc2 : (if 0 < ts then
        Card.take_damage { A with is_exerted := true, owner_player_id := 1 } ts
      else { A with is_exerted := true, owner_player_id := 1 }) =
      { A with
        is_exerted := true, owner_player_id := 1,
        damage_counters := A.damage_counters + ts } := by
    rw [take_damage_if _ _ (by simp [hwA]), max_eq_right hds]
  have ht2 : (if 0 < (if rv ≠ 0 then max 0 ((if cb ≠ 0 then s0 + cb else s0) - rv)
        else if cb ≠ 0 then s0 + cb else s0) then
        Card.take_damage D (if rv ≠ 0 then max 0 ((if cb ≠ 0 then s0 + cb else s0) - rv)
          else if cb ≠ 0 then s0 + cb else s0)
      else D) =
      { D with damage_counters := D.damage_counters + max 0 (s0 + cb - rv) } := by
    rw [take_damage_if _ _ (by simp [hwD])]
    congr 1
    split <;> split <;> omega
  rw [hc2, ht2]
  have hwA2 : ({ A with
      is_exerted := true, owner_player_id := 1,
      damage_counters := A.damage_counters + ts } : Card).willpower =
      some wA := hwA
  have hwD2 : ({ D with
      damage_counters := D.damage_counters + max 0 (s0 + cb - rv) } : Card).willpower =
      some wD := hwD
  have hlA : lethal { A with
      is_exerted := true, owner_player_id := 1,
      damage_counters := A.damage_counters + ts } =
      decide (wA ≤ A.damage_counters + ts) := by
    unfold lethal
    rw [hwA2]
  have hlD : lethal { D with
      damage_counters := D.damage_counters + max 0 (s0 + cb - rv) } =
      decide (wD ≤ D.damage_counters + max 0 (s0 + cb - rv)) := by
    unfold lethal
    rw [hwD2]
  rw [hlA, hlD]
  simp only [decide_eq_true_eq, Option.map_some]
  by_cases hL2 : wD ≤ D.damage_counters + max 0 (s0 + cb - rv) <;>
    by_cases hL1 : wA ≤ A.damage_counters + ts <;>
    simp only [hL1, hL2, if_true, if_false, ite_true, ite_false, not_true, not_false_iff] <;>
    constructor <;>
    simp [GameState.update_player, Player.banish_character, replace_first,
      hpa, hpd, apply_ite, hL1, hL2, hAo, hDo]

/-- C3, witness: the spec's worked example — attacker strength 3 with
Challenger +2 against willpower 4 with Resist +1 deals
max(0, 3+2−1) = 4 and banishes the defender; the attacker takes the
defender's strength 2 and survives. -/
theorem c3_challenge_damage_and_banish_witness :
    (GameState.challenge c3_game c3_attacker c3_defender).map
      (fun g2 => g2.player1.play_area) =
      some [{ c3_attacker with is_exerted := true, damage_counters := 2 }] ∧
    (GameState.challenge c3_game c3_attacker c3_defender).map
      (fun g2 => g2.player2.play_area) = some [] := by
  have h := c3_challenge_damage_and_banish c3_game c3_attacker c3_defender 4 4
    rfl rfl rfl rfl (by decide) (by decide) rfl rfl rfl (by decide)
  exact ⟨by rw [h.1]; decide, by rw [h.2]; decide⟩

set_option maxHeartbeats 1000000 in
set_option maxRecDepth 10000 in
/-- C2, counterexample: the claim asserts no id occurs more than four
times in any crossover offspring.  When the child's color pair admits a
single eligible card, the fill loop (by its own comment, violating the
rule) pads the deck with it: the offspring is 60 copies of one id. -/
theorem c2_crossover_exceeds_copy_cap :
    (crossover_func c2_cat1 [c2_parent] 1 ⟨[]⟩).1 = [c2_parent] ∧
    c2_parent.count 0 = 60 ∧ ¬ (c2_parent.count 0 ≤ 4) := by
  refine ⟨?_, ?_, ?_⟩ <;> first | rfl | decide

/-- A swap of two positions preserves every count. -/
theorem count_list_swap {α : Type} [DecidableEq α] (l : List α) (i j : Nat) (x : α) :
    (list_swap l i j).count x = l.count x := by
  unfold list_swap
  split
  · rename_i a b ha hb
    obtain ⟨hi, hgi⟩ := List.get?_eq_some.mp ha
    obtain ⟨hj, hgj⟩ := List.get?_eq_some.mp hb
    have hj2 : j < (l.set i b).length := by simpa using hj
    rw [List.count_set a x (l.set i b) j hj2,
        List.count_set b x l i hi, List.getElem_set]
    have hli : l[i] = a := hgi
    have hlj : l[j] = b := hgj
    have hca : a ∈ l := hli ▸ List.getElem_mem hi
    have hcb : b ∈ l := hlj ▸ List.getElem_mem hj
    have h1 : (a == x) = true → 1 ≤ l.count x := by
      intro h; rw [beq_iff_eq] at h; subst h
      exact List.count_pos_iff.mpr hca
    have h2 : (b == x) = true → 1 ≤ l.count x := by
      intro h; rw [beq_iff_eq] at h; subst h
      exact List.count_pos_iff.mpr hcb
    rw [hli, hlj]
    split_ifs with hij h3 h4 h4 h3 h4 h4 <;> simp_all
  · rfl

/-- A swap preserves the length. -/
theorem length_list_swap {α : Type} [DecidableEq α] (l : List α) (i j : Nat) :
    (list_swap l i j).length = l.length := by
  unfold list_swap
  split <;> simp [List.length_set]

/-- The Fisher–Yates sweep preserves every count. -/
theorem shuffle_steps_count {α : Type} [DecidableEq α] (x : α) :
    ∀ (n : Nat) (l : List α) (r : PyRNG),
      ((shuffle_steps l r n).1).count x = l.count x := by
  intro n
  induction n with
  | zero => intro l r; rfl
  | succ m ih =>
    intro l r
    simp only [shuffle_steps]
    rcases h : rand_below (m + 2) r with ⟨j, r2⟩
    rw [ih, count_list_swap]

/-- The Fisher–Yates sweep preserves the length. -/
theorem shuffle_steps_length {α : Type} [DecidableEq α] :
    ∀ (n : Nat) (l : List α) (r : PyRNG),
      ((shuffle_steps l r n).1).length = l.length := by
  intro n
  induction n with
  | zero => intro l r; rfl
  | succ m ih =>
    intro l r
    simp only [shuffle_steps]
    rcases h : rand_below (m + 2) r with ⟨j, r2⟩
    rw [ih, length_list_swap]

/-- `py_shuffle` preserves every count. -/
theorem py_shuffle_count {α : Type} [DecidableEq α] (l : List α) (r : PyRNG) (x : α) :
    ((py_shuffle l r).1).count x = l.count x :=
  shuffle_steps_count x (l.length - 1) l r

/-- `py_shuffle` preserves the length. -/
theorem py_shuffle_length {α : Type} [DecidableEq α] (l : List α) (r : PyRNG) :
    ((py_shuffle l r).1).length = l.length :=
  shuffle_steps_length (l.length - 1) l r

/-- Stable insertion is a permutation of pushing on the front. -/
theorem insert_le_perm {α : Type} (le : α → α → Bool) (x : α) :
    ∀ l : List α, (insert_le le x l).Perm (x :: l) := by
  intro l
  induction l with
  | nil => exact List.Perm.refl _
  | cons y ys ih =>
    unfold insert_le
    split
    · exact (ih.cons y).trans (List.Perm.swap x y ys)
    · exact List.Perm.refl _

/-- The insertion-sort loop permutes its input. -/
theorem insort_go_perm {α : Type} (le : α → α → Bool) :
    ∀ (l acc : List α),
      (l.foldl (fun acc x => insert_le le x acc) acc).Perm (acc ++ l) := by
  intro l
  induction l with
  | nil => intro acc; simp
  | cons x t ih =>
    intro acc
    have h1 := ih (insert_le le x acc)
    have h2 : (insert_le le x acc ++ t).Perm (acc ++ x :: t) :=
      ((insert_le_perm le x acc).append_right t).trans List.perm_middle.symm
    exact (List.foldl_cons _ _ ▸ h1).trans h2

/-- `insort` permutes its input. -/
theorem insort_perm {α : Type} (le : α → α → Bool) (l : List α) :
    (insort le l).Perm l := by
  simpa using insort_go_perm le l []

/-- Count of an id in the four-copies pool. -/
theorem count_flatMap_replicate (f : String → Nat) (names : List String) (y : Nat) :
    (names.flatMap (fun nm => List.replicate 4 (f nm))).count y =
      4 * (names.map f).count y := by
  induction names with
  | nil => rfl
  | cons nm t ih =>
    rw [List.flatMap_cons, List.count_append, List.map_cons, List.count_cons, ih,
      List.count_replicate]
    split <;> omega

/-- Length of the four-copies pool. -/
theorem length_flatMap_replicate (f : String → Nat) (names : List String) :
    (names.flatMap (fun nm => List.replicate 4 (f nm))).length = 4 * names.length := by
  induction names with
  | nil => rfl
  | cons nm t ih =>
    rw [List.flatMap_cons, List.length_append, List.length_cons, ih,
      List.length_replicate]
    omega

/-- Splitting the membership count over a fresh head. -/
theorem countP_mem_cons (child : List Nat) (c : Nat) (rest : List Nat)
    (hc : c ∉ rest) :
    child.countP (fun y => decide (y ∈ c :: rest)) =
      child.count c + child.countP (fun y => decide (y ∈ rest)) := by
  induction child with
  | nil => rfl
  | cons y t ih =>
    simp only [List.countP_cons, List.count_cons, ih]
    by_cases hyc : y = c
    · subst hyc
      simp [hc]
      omega
    · by_cases hyr : y ∈ rest <;> simp [hyc, hyr] <;> omega

/-- Over a duplicate-free index list, the summed counts are the count of
members. -/
theorem sum_map_count_eq (pool child : List Nat) (hnd : pool.Nodup) :
    (pool.map (fun c => child.count c)).sum =
      child.countP (fun y => decide (y ∈ pool)) := by
  induction pool with
  | nil => simp
  | cons c rest ih =>
    rw [List.map_cons, List.sum_cons, ih (List.Nodup.of_cons hnd),
      countP_mem_cons child c rest (List.nodup_cons.mp hnd).1]

/-- A pointwise lower bound on the summed counts. -/
theorem le_sum_map_of_forall (pool : List Nat) (f : Nat → Nat)
    (h : ∀ c ∈ pool, 4 ≤ f c) : 4 * pool.length ≤ (pool.map f).sum := by
  induction pool with
  | nil => simp
  | cons c rest ih =>
    rw [List.map_cons, List.sum_cons, List.length_cons]
    have h1 := h c (List.mem_cons_self c rest)
    have h2 := ih (fun x hx => h x (List.mem_cons_of_mem c hx))
    omega

/-- The packing loop never pushes an id past four copies. -/
theorem pack_genes_count_le :
    ∀ (pool child : List Nat), (∀ x, child.count x ≤ 4) →
      ∀ x, (pack_genes pool child).count x ≤ 4 := by
  intro pool
  induction pool with
  | nil => intro child h; exact h
  | cons gene rest ih =>
    intro child h x
    unfold pack_genes
    split
    · exact h x
    · split
      · refine ih (child ++ [gene]) (fun y => ?_) x
        rw [List.count_append, List.count_cons]
        rename_i hlt
        by_cases hy : gene = y
        · subst hy; simp; omega
        · simp [hy]
          exact h y
      · exact ih child h x

/-- The packing loop keeps the child at 60 cards or fewer. -/
theorem pack_genes_length_le :
    ∀ (pool child : List Nat), child.length ≤ 60 →
      (pack_genes pool child).length ≤ 60 := by
  intro pool
  induction pool with
  | nil => intro child h; exact h
  | cons gene rest ih =>
    intro child h
    unfold pack_genes
    split
    · exact h
    · split
      · refine ih (child ++ [gene]) ?_
        rename_i hlt _
        rw [List.length_append]
        simp at hlt ⊢
        omega
      · exact ih child h

/-- The chosen element of a non-empty sequence is a member. -/
theorem py_choice_fst_of_ne_nil {α : Type} (l : List α) (r : PyRNG) (h : l ≠ []) :
    ∃ x ∈ l, (py_choice l r).1 = some x := by
  unfold py_choice
  rw [if_neg (by simpa [List.isEmpty_iff] using h)]
  have hpos : 0 < l.length := List.length_pos.mpr h
  rcases hrb : rand_below l.length r with ⟨j, r2⟩
  have hj : j < l.length := by
    have h1 : (rand_below l.length r).1 < l.length := by
      unfold rand_below
      rcases hx : r.next with ⟨n, r3⟩
      simp only [hx]
      rw [if_neg (by omega)]
      exact Nat.mod_lt n hpos
    rw [hrb] at h1
    exact h1
  exact ⟨l.get ⟨j, hj⟩, List.get_mem l j hj, List.get?_eq_get hj⟩

/-- `randint(0, b)` stays below `b + 1`. -/
theorem py_randint_fst_lt (b : Nat) (r : PyRNG) : (py_randint 0 b r).1 < b + 1 := by
  unfold py_randint rand_below
  rcases hx : r.next with ⟨n, r3⟩
  simp only [hx, Nat.sub_zero]
  rw [if_neg (by omega)]
  have := Nat.mod_lt n (show 0 < b + 1 by omega)
  omega

/-- A default-read inside bounds is a member. -/
theorem getD_mem_of_lt {α : Type} (l : List α) (i : Nat) (d : α) (h : i < l.length) :
    l.getD i d ∈ l := by
  rw [List.getD_eq_getElem l d h]
  exact List.getElem_mem h

/-- Under a duplicate-free pool of at least 15 ids, the fill loop grows
the child to exactly 60 cards without passing four copies of any id
(the rule-violating branch is unreachable: with 15 distinct ids capped
at four copies there is always a card below the cap before 60). -/
theorem fill_deck_legal (pool : List Nat) (fb : Nat)
    (hnd : pool.Nodup) (hp : 15 ≤ pool.length) :
    ∀ (fuel : Nat) (child : List Nat) (r : PyRNG),
      (∀ x, child.count x ≤ 4) → child.length ≤ 60 → 60 ≤ child.length + fuel →
      (fill_deck pool fb child r fuel).1.length = 60 ∧
      ∀ x, (fill_deck pool fb child r fuel).1.count x ≤ 4 := by
  intro fuel
  induction fuel with
  | zero =>
    intro child r hc hl hf
    have hchild : child.length = 60 := by omega
    exact ⟨hchild, hc⟩
  | succ m ih =>
    intro child r hc hl hf
    unfold fill_deck
    split
    · rename_i h60
      exact ⟨(by omega : child.length = 60), hc⟩
    · rename_i h60
      have hlt : child.length < 60 := by omega
      have hpne : pool ≠ [] := by
        intro hpe
        rw [hpe] at hp
        simp at hp
      rw [if_neg (by simpa [List.isEmpty_iff] using hpne)]
      have havail : pool.filter (fun c => decide (child.count c < 4)) ≠ [] := by
        intro hav
        have hall : ∀ c ∈ pool, 4 ≤ child.count c := by
          intro c hcp
          by_contra hle
          have hmem : c ∈ pool.filter (fun c => decide (child.count c < 4)) :=
            List.mem_filter.mpr ⟨hcp, by simpa using by omega⟩
          rw [hav] at hmem
          simp at hmem
        have h1 : 4 * pool.length ≤ (pool.map (fun c => child.count c)).sum :=
          le_sum_map_of_forall pool _ hall
        have h2 : (pool.map (fun c => child.count c)).sum ≤ child.length := by
          rw [sum_map_count_eq pool child hnd]
          exact List.countP_le_length _
        omega
      rw [if_pos (by simpa [List.isEmpty_iff] using havail)]
      obtain ⟨x, hxmem, hx1⟩ :=
        py_choice_fst_of_ne_nil (pool.filter (fun c => decide (child.count c < 4))) r havail
      rcases hch : py_choice (pool.filter (fun c => decide (child.count c < 4))) r
        with ⟨xo, r1⟩
      rw [hch] at hx1
      have hxo : xo = some x := hx1
      rw [hxo]
      simp only [Option.getD_some]
      have hxlt : child.count x < 4 := by
        have := (List.mem_filter.mp hxmem).2
        simpa using this
      refine ih (child ++ [x]) r1 (fun y => ?_) ?_ (by simp; omega)
      · rw [List.count_append, List.count_cons]
        by_cases hy : x = y
        · subst hy; simp; omega
        · simp [hy]
          exact hc y
      · simp
        omega

/-- Decks from `generate_deck` are 60 cards with at most four copies of
any id, provided no id is duplicated inside any pair's eligible list. -/
theorem generate_deck_legal (catalog : List CardData)
    (hpair : ∀ pair ∈ all_ink_pairs,
      ((ink_pair_card_lists catalog pair).map (card_to_id catalog)).Nodup) :
    ∀ (fuel : Nat) (r r2 : PyRNG) (d : List Nat),
      generate_deck catalog fuel r = (some d, r2) →
      d.length = 60 ∧ ∀ x, d.count x ≤ 4 := by
  intro fuel
  induction fuel with
  | zero =>
    intro r r2 d h
    simp [generate_deck] at h
  | succ m ih =>
    intro r r2 d h
    unfold generate_deck at h
    rcases hch : py_choice all_ink_pairs r with ⟨k, r1⟩
    rw [hch] at h
    simp only [] at h
    by_cases hlen : 15 ≤ (ink_pair_card_lists catalog (k.getD [])).length
    · rw [if_pos hlen] at h
      rcases hsh : py_shuffle ((ink_pair_card_lists catalog (k.getD [])).flatMap
        (fun nm => List.replicate 4 (card_to_id catalog nm))) r1 with ⟨pool2, r3⟩
      have hd0 := Option.some.inj (congrArg Prod.fst h)
      rw [hsh] at hd0
      have hd : sort_ids (pool2.take 60) = d := hd0
      obtain ⟨pair, hpm, hp1⟩ :=
        py_choice_fst_of_ne_nil all_ink_pairs r (by decide)
      rw [hch] at hp1
      have hk : k = some pair := hp1
      have hkd : k.getD [] = pair := by rw [hk]; rfl
      rw [hkd] at hsh hlen
      have hnod := hpair pair hpm
      have hcnt : ∀ y, pool2.count y =
          ((ink_pair_card_lists catalog pair).flatMap
            (fun nm => List.replicate 4 (card_to_id catalog nm))).count y := by
        intro y
        have := py_shuffle_count ((ink_pair_card_lists catalog pair).flatMap
          (fun nm => List.replicate 4 (card_to_id catalog nm))) r1 y
        rw [hsh] at this
        exact this
      have hplen : pool2.length = 4 * (ink_pair_card_lists catalog pair).length := by
        have := py_shuffle_length ((ink_pair_card_lists catalog pair).flatMap
          (fun nm => List.replicate 4 (card_to_id catalog nm))) r1
        rw [hsh] at this
        rw [this, length_flatMap_replicate]
      subst hd
      constructor
      · simp only [sort_ids]
        rw [(insort_perm _ _).length_eq, List.length_take, hplen]
        omega
      · intro y
        simp only [sort_ids]
        rw [(insort_perm _ _).count_eq y]
        have h1 : (pool2.take 60).count y ≤ pool2.count y :=
          (List.take_sublist 60 pool2).count_le y
        have h2 := hcnt y
        rw [count_flatMap_replicate] at h2
        have h3 : ((ink_pair_card_lists catalog pair).map (card_to_id catalog)).count y ≤ 1 :=
          List.nodup_iff_count_le_one.mp hnod y
        omega
    · rw [if_neg hlen] at h
      exact ih r1 r2 d h

/-- A single crossover offspring is 60 cards with at most four copies
of any id, whenever every parent's ink pair admits at least 15 distinct
eligible ids. -/
theorem crossover_one_legal (catalog : List CardData) (parents : List (List Nat))
    (r : PyRNG) (hne : parents ≠ [])
    (h15 : ∀ p ∈ parents, 15 ≤ ((ink_pair_card_lists catalog
      (sort_strings (get_deck_inks catalog p))).map (card_to_id catalog)).dedup.length) :
    (crossover_one catalog parents r).1.length = 60 ∧
    ∀ x, (crossover_one catalog parents r).1.count x ≤ 4 := by
  unfold crossover_one
  rcases h1 : py_randint 0 (parents.length - 1) r with ⟨i1, ra⟩
  rcases h2 : py_randint 0 (parents.length - 1) ra with ⟨i2, rb⟩
  simp only [h2]
  have hplen : 0 < parents.length := List.length_pos.mpr hne
  have hi1 : i1 < parents.length := by
    have := py_randint_fst_lt (parents.length - 1) r
    rw [h1] at this
    omega
  have hp1mem : parents.getD i1 [] ∈ parents := getD_mem_of_lt parents i1 [] hi1
  have h15p := h15 (parents.getD i1 []) hp1mem
  have hvne : ¬ ((ink_pair_card_lists catalog
      (sort_strings (get_deck_inks catalog (parents.getD i1 [])))).isEmpty = true) := by
    rw [List.isEmpty_iff]
    intro hemp
    rw [hemp] at h15p
    simp at h15p
  rw [if_neg hvne]
  rcases hsh : py_shuffle ((parents.getD i1 [] ++ parents.getD i2 []).filter
    (fun gene => ((ink_pair_card_lists catalog
      (sort_strings (get_deck_inks catalog (parents.getD i1 [])))).map
        (card_to_id catalog)).dedup.contains gene)) rb with ⟨pp, rc⟩
  simp only [hsh]
  have hnd : ((ink_pair_card_lists catalog
      (sort_strings (get_deck_inks catalog (parents.getD i1 [])))).map
        (card_to_id catalog)).dedup.Nodup := List.nodup_dedup _
  have hfl := fill_deck_legal ((ink_pair_card_lists catalog
      (sort_strings (get_deck_inks catalog (parents.getD i1 [])))).map
        (card_to_id catalog)).dedup ((parents.getD i1 []).headD 0) hnd h15p 60
    (pack_genes pp []) rc
    (pack_genes_count_le pp [] (fun x => by simp))
    (pack_genes_length_le pp [] (by simp))
    (by have := pack_genes_length_le pp [] (by simp); omega)
  rcases hfd : fill_deck ((ink_pair_card_lists catalog
      (sort_strings (get_deck_inks catalog (parents.getD i1 [])))).map
        (card_to_id catalog)).dedup ((parents.getD i1 []).headD 0)
    (pack_genes pp []) rc 60 with ⟨child, rd⟩
  rw [hfd] at hfl
  simp only [hfd]
  have hclen : child.length = 60 := hfl.1
  have hccnt : ∀ x, child.count x ≤ 4 := hfl.2
  rw [List.take_of_length_le (by omega)]
  exact ⟨hclen, hccnt⟩

/-- Every offspring of a crossover batch is 60 cards with at most four
copies of any id, whenever every parent's ink pair admits at least 15
distinct eligible ids. -/
theorem crossover_func_legal (catalog : List CardData) (parents : List (List Nat))
    (hne : parents ≠ [])
    (h15 : ∀ p ∈ parents, 15 ≤ ((ink_pair_card_lists catalog
      (sort_strings (get_deck_inks catalog p))).map (card_to_id catalog)).dedup.length) :
    ∀ (n : Nat) (r : PyRNG), ∀ d ∈ (crossover_func catalog parents n r).1,
      d.length = 60 ∧ ∀ x, d.count x ≤ 4 := by
  intro n
  induction n with
  | zero =>
    intro r d hd
    simp [crossover_func] at hd
  | succ m ih =>
    intro r d hd
    unfold crossover_func at hd
    rcases h1 : crossover_one catalog parents r with ⟨child, r1⟩
    rw [h1] at hd
    simp only [] at hd
    rcases h2 : crossover_func catalog parents m r1 with ⟨rest, r2⟩
    rw [h2] at hd
    simp only [List.mem_cons] at hd
    rcases hd with hd | hd
    · subst hd
      have hco := crossover_one_legal catalog parents r hne h15
      rw [h1] at hco
      exact hco
    · have := ih r1 d
      rw [h2] at this
      exact this hd

/-- C2: the claim asserts every GA deck — initial, crossover,
mutation — is 60 cards with no id above four copies.  The crossover fill
loop violates the cap (see the counterexample), so the claim is amended:
the invariant holds for `generate_deck` whenever no pair's eligible list
duplicates an id, and for `_crossover_func` whenever every parent's ink
pair admits at least 15 distinct eligible ids; `_mutation_func` reads
the never-assigned `self.mutation_rate`, so its exception handler
returns the offspring unchanged and it preserves any invariant. -/
theorem c2_ga_decks_legal (catalog : List CardData) (parents : List (List Nat))
    (fuel n : Nat) (r rg : PyRNG)
    (hpair : ∀ pair ∈ all_ink_pairs,
      ((ink_pair_card_lists catalog pair).map (card_to_id catalog)).Nodup)
    (hne : parents ≠ [])
    (h15 : ∀ p ∈ parents, 15 ≤ ((ink_pair_card_lists catalog
      (sort_strings (get_deck_inks catalog p))).map (card_to_id catalog)).dedup.length) :
    (∀ (r2 : PyRNG) (d : List Nat), generate_deck catalog fuel rg = (some d, r2) →
      d.length = 60 ∧ ∀ x, d.count x ≤ 4) ∧
    (∀ d ∈ (crossover_func catalog parents n r).1,
      d.length = 60 ∧ ∀ x, d.count x ≤ 4) ∧
    mutation_func parents = parents :=
  ⟨fun r2 d h => generate_deck_legal catalog hpair fuel rg r2 d h,
   crossover_func_legal catalog parents hne h15 n r,
   rfl⟩

set_option maxRecDepth 10000 in
/-- C2, witness: over the 15-card two-color catalog, the hypotheses
hold and the single crossover offspring drawn from the parent of four
copies of each id is legal. -/
theorem c2_ga_decks_legal_witness :
    ((∀ pair ∈ all_ink_pairs,
        ((ink_pair_card_lists c2_wrows pair).map (card_to_id c2_wrows)).Nodup) ∧
      [c2_dval] ≠ ([] : List (List Nat)) ∧
      (∀ p ∈ [c2_dval], 15 ≤ ((ink_pair_card_lists c2_wrows
        (sort_strings (get_deck_inks c2_wrows p))).map (card_to_id c2_wrows)).dedup.length)) ∧
    ∀ d ∈ (crossover_func c2_wrows [c2_dval] 1 ⟨[]⟩).1,
      d.length = 60 ∧ ∀ x, d.count x ≤ 4 :=
  ⟨⟨by decide, by decide, by decide⟩,
   (c2_ga_decks_legal c2_wrows [c2_dval] 1 1 ⟨[]⟩ ⟨[]⟩
      (by decide) (by decide) (by decide)).2.1⟩

end Oracle
